import Mathlib

/-!
Verification of the skills CLI fetch pipeline of
`src/winwin_cli/skills/cli.py`.

The pipeline resolves a skill spec string into an (owner, repo, path,
ref) target, recursively lists the remote directory tree through the
GitHub contents API, downloads the flattened file list with a bounded
worker pool, and exposes a catalog listing plus a front-matter
metadata extractor.

Strings are modelled as lists of characters (`Str`) because the
embedded Python string operations (`split`, `replace`, `in`,
`startswith`, `lower`, `join`) must evaluate inside the kernel; the
corresponding core `String` functions are compiled by well-founded
recursion and do not reduce there.  All operations below are
structurally recursive (with an explicit fuel argument where needed)
and follow Python semantics for the separators actually used by the
program, which are always non-empty.
-/

abbrev Str := List Char

/-- Coerce a Lean string literal to the character-list model. -/
def str (s : String) : Str := s.data

/-- Python `sep.join(parts)`. -/
def joinWith (sep : Str) (parts : List Str) : Str := List.intercalate sep parts

/-- Fuel-driven worker for `pySplit`.  The fuel `s.length + 1` always
suffices when the separator is non-empty, since every step consumes at
least one character of `s`. -/
def pySplitGo (sep : Str) : Nat → Str → Str → List Str
  | 0, s, acc => [acc.reverse ++ s]
  | fuel + 1, s, acc =>
    if sep.isPrefixOf s then
      acc.reverse :: pySplitGo sep fuel (s.drop sep.length) []
    else
      match s with
      | [] => [acc.reverse]
      | c :: rest => pySplitGo sep fuel rest (c :: acc)

/-- Python `s.split(sep)` for a non-empty separator (all separators the
program splits on are non-empty; for an empty separator we return `[s]`,
a case the program never exercises). -/
def pySplit (s sep : Str) : List Str :=
  if sep = [] then [s] else pySplitGo sep (s.length + 1) s []

/-- Python `s.split(sep, maxsplit)`: at most `maxsplit` splits, the
remainder is glued back together with the separator. -/
def pySplitMax (s sep : Str) (maxsplit : Nat) : List Str :=
  let parts := pySplit s sep
  if parts.length ≤ maxsplit + 1 then parts
  else parts.take maxsplit ++ [joinWith sep (parts.drop maxsplit)]

/-- Fuel-driven worker for `pyReplace`. -/
def pyReplaceGo (old new : Str) : Nat → Str → Str
  | 0, s => s
  | fuel + 1, s =>
    if old.isPrefixOf s then
      new ++ pyReplaceGo old new fuel (s.drop old.length)
    else
      match s with
      | [] => []
      | c :: rest => c :: pyReplaceGo old new fuel rest

/-- Python `s.replace(old, new)` for non-empty `old` (the program only
replaces the URL prefix, which is non-empty). -/
def pyReplace (s old new : Str) : Str :=
  if old = [] then s else pyReplaceGo old new (s.length + 1) s

/-- Python `sub in s` (substring containment). -/
def containsSub : Str → Str → Bool
  | s, sub =>
    sub.isPrefixOf s ||
      match s with
      | [] => false
      | _ :: rest => containsSub rest sub

/-- Python `s.lower()` (ASCII-adequate, as in the fuzzy-match use). -/
def lowerStr (s : Str) : Str := s.map Char.toLower

/-- Sanity checks that the Python string model evaluates in the kernel. -/
example : pySplit (str "a/b/c") (str "/") = [str "a", str "b", str "c"] := by decide
example : pySplit (str "") (str "/") = [str ""] := by decide
example : pySplit (str "/") (str "/") = [str "", str ""] := by decide
example : pyReplace (str "https://github.com/a/b") (str "https://github.com/") [] = str "a/b" := by decide
example : pySplitMax (str "---a---b---c") (str "---") 2 = [str "", str "a", str "b---c"] := by decide
example : containsSub (str "react-expert") (str "act") = true := by decide
example : containsSub (str "react") (str "acx") = false := by decide
example : lowerStr (str "AbC") = str "abc" := by decide
example : joinWith (str "/") [str "a", str "b"] = str "a/b" := by decide

/-! ## SpecResolver

`FetchTarget` is the fully qualified remote directory identifier
produced by the resolution step of `_resolve_and_download_skill`
(cli.py lines 321 to 369).  `resolveSpec` is that resolution logic
verbatim; the download it then triggers is modelled separately.
`PyResult.exn` models a Python exception escaping to the
`except Exception` handler of `_resolve_and_download_skill`
(in the source: a failed tuple unpacking of `split("/")` raises
`ValueError`).
-/

structure FetchTarget where
  owner : Str
  repo : Str
  path : Str
  ref : Str
deriving DecidableEq, Repr

/-- Result of a Python call that may raise: `ok` is a normal return,
`exn` an exception escaping to the nearest handler. -/
inductive PyResult (α : Type) where
  | ok (a : α)
  | exn (msg : String)
deriving DecidableEq, Repr

/-- Whether a `PyResult` is a normal return. -/
def PyResult.toBool : PyResult α → Bool
  | .ok _ => true
  | .exn _ => false

/-- Python `repo_override or default` (`None` and the empty string are
falsy). -/
def orDefault (override : Option Str) (d : Str) : Str :=
  match override with
  | some o => if o = [] then d else o
  | none => d

/-- The resolution logic of `_resolve_and_download_skill` (cli.py
lines 335 to 369).  Python `"/" in skill_spec` is modelled as
`(pySplit spec (str "/")).length > 1`, which is equivalent for the
non-empty separator `"/"`.  `defaultRepo` models
`_get_default_skills_repo()` (environment variable or the compiled-in
literal). -/
def resolveSpec (spec ref : Str) (override : Option Str) (defaultRepo : Str) :
    PyResult FetchTarget :=
  if (str "https://github.com/").isPrefixOf spec then
    let parts := pySplit (pyReplace spec (str "https://github.com/") []) (str "/tree/")
    let repoPath := parts.getD 0 []
    if parts.length > 1 then
      let segs := pySplit (parts.getD 1 []) (str "/")
      let newRef := segs.getD 0 []
      let skillName := joinWith (str "/") (segs.drop 1)
      match pySplit repoPath (str "/") with
      | [o, r] => .ok ⟨o, r, skillName, newRef⟩
      | _ => .exn "ValueError: owner, repo unpacking failed"
    else
      let segs := pySplit repoPath (str "/")
      let skillName := segs.getLastD []
      let repoPath2 := joinWith (str "/") segs.dropLast
      match pySplit repoPath2 (str "/") with
      | [o, r] => .ok ⟨o, r, skillName, ref⟩
      | _ => .exn "ValueError: owner, repo unpacking failed"
  else if 1 < (pySplit spec (str "/")).length then
    let parts := pySplit spec (str "/")
    if 3 ≤ parts.length then
      .ok ⟨parts.getD 0 [], parts.getD 1 [], joinWith (str "/") (parts.drop 2), ref⟩
    else
      match override with
      | some o =>
        if o ≠ [] then
          match pySplit o (str "/") with
          | [ow, r] => .ok ⟨ow, r, spec, ref⟩
          | _ => .exn "ValueError: owner, repo unpacking failed"
        else
          match pySplit defaultRepo (str "/") with
          | [ow, r] => .ok ⟨ow, r, spec, ref⟩
          | _ => .exn "ValueError: owner, repo unpacking failed"
      | none =>
        match pySplit defaultRepo (str "/") with
        | [ow, r] => .ok ⟨ow, r, spec, ref⟩
        | _ => .exn "ValueError: owner, repo unpacking failed"
  else
    match pySplit (orDefault override defaultRepo) (str "/") with
    | [ow, r] => .ok ⟨ow, r, spec, ref⟩
    | _ => .exn "ValueError: owner, repo unpacking failed"

example :
    resolveSpec (str "web/react-expert") (str "main") none (str "acme/skills") =
      .ok ⟨str "acme", str "skills", str "web/react-expert", str "main"⟩ := by decide

example :
    resolveSpec (str "acme/skills/web/react-expert") (str "main") (some (str "x/y"))
        (str "d/r") =
      .ok ⟨str "acme", str "skills", str "web/react-expert", str "main"⟩ := by decide

example :
    resolveSpec (str "https://github.com/acme/skills/tree/dev/web/react") (str "main")
        none (str "d/r") =
      .ok ⟨str "acme", str "skills", str "web/react", str "dev"⟩ := by decide

example :
    (resolveSpec (str "https://github.com/acme/skills") (str "main") none
        (str "d/r")).toBool = false := by decide

/-! ## RemoteTreeLister

`_collect_files` (cli.py lines 395 to 414) walks the remote directory
tree depth-first through GitHub contents-API listing calls and appends
one download job per file entry.  The remote tree is modelled as a
`Forest`: the sibling sequence of entries one listing call returns.
Each `dir` entry carries the response of the listing call for its own
`url`: `dirOk` when the call returned JSON items (per the source a
non-list JSON value is wrapped into a one-item list, so a non-list
response is modelled as a singleton forest), `dirFail` when
`requests.get` or `raise_for_status` raised.  `file` carries the
optional `download_url` and the optional `path` field; `obj` is a JSON
object whose `type` is neither `"file"` nor `"dir"` (for example an
API error object carrying only a `message`), which the loop skips.
-/

inductive Forest where
  | nil : Forest
  | file (name : Str) (downloadUrl : Option Str) (pathField : Option Str) (rest : Forest) : Forest
  | obj (message : Option Str) (rest : Forest) : Forest
  | dirOk (name : Str) (sub : Forest) (rest : Forest) : Forest
  | dirFail (name : Str) (e : String) (rest : Forest) : Forest
deriving DecidableEq, Repr

/-- The response of one listing call: either the request raised
(`fail`, covering HTTP errors via `raise_for_status` and transport
errors) or it returned JSON entries. -/
inductive Listing where
  | fail (e : String) : Listing
  | ok (items : Forest) : Listing
deriving DecidableEq, Repr

/-- One element of `files_to_download`: the tuple
`(download_url, file_path, display_path)` built at cli.py line 410.
The local path is a component list rooted at the temporary
directory. -/
structure FetchJob where
  sourceUrl : Str
  localPath : List Str
  displayPath : Str
deriving DecidableEq, Repr

/-- The body of the `for item in items` loop of `_collect_files`:
a file entry with a truthy `download_url` appends one job (with
display path `item.get("path", item["name"])`); a `dir` entry recurses
into its own listing before the later siblings; any raised exception
aborts the whole walk. -/
def collectForest : Forest → List Str → PyResult (List FetchJob)
  | .nil, _ => .ok []
  | .file name dl pf rest, d =>
    match collectForest rest d with
    | .exn e => .exn e
    | .ok tail =>
      .ok ((match dl with
            | some u => if u = [] then [] else [⟨u, d ++ [name], pf.getD name⟩]
            | none => []) ++ tail)
  | .obj _ rest, d => collectForest rest d
  | .dirOk name sub rest, d =>
    match collectForest sub (d ++ [name]) with
    | .exn e => .exn e
    | .ok subJobs =>
      match collectForest rest d with
      | .exn e => .exn e
      | .ok tail => .ok (subJobs ++ tail)
  | .dirFail _ e _, _ => .exn e

/-- `_collect_files` applied to the root listing call for
`api_base`, collecting into the fresh temporary directory (the empty
component list). -/
def collectFiles (root : Listing) (d : List Str) : PyResult (List FetchJob) :=
  match root with
  | .fail e => .exn e
  | .ok f => collectForest f d

/-- Number of file entries reachable in the forest (the non-directory
nodes of the tree). -/
def countFileNodes : Forest → Nat
  | .nil => 0
  | .file _ _ _ rest => 1 + countFileNodes rest
  | .obj _ rest => countFileNodes rest
  | .dirOk _ sub rest => countFileNodes sub + countFileNodes rest
  | .dirFail _ _ rest => countFileNodes rest

/-- Number of reachable file entries carrying a truthy
`download_url` (exactly the ones `_collect_files` keeps). -/
def countDlFiles : Forest → Nat
  | .nil => 0
  | .file _ dl _ rest =>
    (match dl with
     | some u => if u = [] then 0 else 1
     | none => 0) + countDlFiles rest
  | .obj _ rest => countDlFiles rest
  | .dirOk _ sub rest => countDlFiles sub + countDlFiles rest
  | .dirFail _ _ rest => countDlFiles rest

/-- Whether any listing call reachable in the forest fails. -/
def hasFail : Forest → Bool
  | .nil => false
  | .file _ _ _ rest => hasFail rest
  | .obj _ rest => hasFail rest
  | .dirOk _ sub rest => hasFail sub || hasFail rest
  | .dirFail _ _ _ => true

/-- The depth-first flat job list over the file entries with a truthy
`download_url` (what `_collect_files` produces on a failure-free
tree). -/
def dlJobs : Forest → List Str → List FetchJob
  | .nil, _ => []
  | .file name dl pf rest, d =>
    (match dl with
     | some u => if u = [] then [] else [⟨u, d ++ [name], pf.getD name⟩]
     | none => []) ++ dlJobs rest d
  | .obj _ rest, d => dlJobs rest d
  | .dirOk name sub rest, d => dlJobs sub (d ++ [name]) ++ dlJobs rest d
  | .dirFail _ _ rest, d => dlJobs rest d

example :
    collectFiles
      (.ok (.dirOk (str "skill")
        (.file (str "SKILL.md") (some (str "u1")) (some (str "cat/skill/SKILL.md"))
          (.dirOk (str "scripts")
            (.file (str "run.sh") (some (str "u2")) (some (str "cat/skill/scripts/run.sh")) .nil)
            .nil))
        .nil)) [] =
      .ok [⟨str "u1", [str "skill", str "SKILL.md"], str "cat/skill/SKILL.md"⟩,
           ⟨str "u2", [str "skill", str "scripts", str "run.sh"], str "cat/skill/scripts/run.sh"⟩] := by
  decide

/-! ## ConcurrentFetcher

`_download_file` (cli.py lines 429 to 443) performs one download and
never raises: it returns `(True, display_path)` or
`(False, "display_path: error")`.  The network is an oracle
`net : Str → PyResult Unit` mapping a download URL to success or to
the raised exception.  The thread pool of `_download_skill_from_github`
submits every job exactly once and consumes results in completion
order; completion order is modelled as an arbitrary permutation of the
job list, supplied as the `order` argument.
-/

structure FetchOutcome where
  job : FetchJob
  success : Bool
  message : Str
deriving DecidableEq, Repr

/-- `_download_file` on one job. -/
def downloadFile (net : Str → PyResult Unit) (j : FetchJob) : FetchOutcome :=
  match net j.sourceUrl with
  | .ok _ => ⟨j, true, j.displayPath⟩
  | .exn e => ⟨j, false, j.displayPath ++ str ": " ++ str e⟩

/-- Whether `_download_file` fails on a job under the given network. -/
def jobFails (net : Str → PyResult Unit) (j : FetchJob) : Bool :=
  match net j.sourceUrl with
  | .ok _ => false
  | .exn _ => true

/-- The outcomes the pool collects, in completion order. -/
def fetchAll (net : Str → PyResult Unit) (jobs : List FetchJob) : List FetchOutcome :=
  jobs.map (downloadFile net)

/-- The `failed` counter of the result loop (cli.py lines 450 to 462):
the number of outcomes with `success = False`. -/
def countFailed (outs : List FetchOutcome) : Nat :=
  (outs.filter (fun o => o.success = false)).length

/-- Observable result of one `_download_skill_from_github` run.
`returned` is whether a temporary directory was handed back to
the caller (`None` means abort); the temporary directory is created
unconditionally at entry, and `tempRemoved` records whether
`shutil.rmtree` ran on it before returning. -/
structure DlRun where
  returned : Bool
  tempCreated : Bool
  tempRemoved : Bool
  outcomes : List FetchOutcome
  failed : Nat
deriving DecidableEq, Repr

/-- `_download_skill_from_github` (cli.py lines 384 to 477): create the
temporary directory, collect the file list, abort (removing the
directory) if collection raised or found no files, otherwise drain the
pool over the jobs in completion order `order jobs` and return the
directory together with the failure count. -/
def downloadSkillFromGithub (root : Listing) (net : Str → PyResult Unit)
    (order : List FetchJob → List FetchJob) : DlRun :=
  match collectFiles root [] with
  | .exn _ => ⟨false, true, true, [], 0⟩
  | .ok files =>
    if files = [] then ⟨false, true, true, [], 0⟩
    else
      let outs := fetchAll net (order files)
      ⟨true, true, false, outs, countFailed outs⟩

/-- Observable result of `_resolve_and_download_skill`
(cli.py lines 321 to 381): resolution happens before any temporary
directory exists, so a resolution exception aborts with no directory
created; otherwise the run is the download run. -/
structure PipelineRun where
  returned : Bool
  tempCreated : Bool
  tempRemoved : Bool
deriving DecidableEq, Repr

/-- `_resolve_and_download_skill`: resolve, then download.  `world`
maps the resolved target to the root listing response of its
contents-API URL. -/
def resolveAndDownloadSkill (spec ref : Str) (override : Option Str) (defaultRepo : Str)
    (world : FetchTarget → Listing) (net : Str → PyResult Unit)
    (order : List FetchJob → List FetchJob) : PipelineRun :=
  match resolveSpec spec ref override defaultRepo with
  | .exn _ => ⟨false, false, false⟩
  | .ok t =>
    let run := downloadSkillFromGithub (world t) net order
    ⟨run.returned, run.tempCreated, run.tempRemoved⟩

/-! ## MetadataExtractor

`_parse_skill_metadata_from_content` (cli.py lines 599 to 610) splits
the text on the `---` front-matter delimiter (at most twice), feeds the
middle part to `yaml.safe_load`, replaces a `None` result by `{}`, and
converts any raised exception into `{}`.  The YAML library is outside
the repository, so it is an oracle `Yaml` returning either a raised
exception, `None`, or a mapping; mapping values are modelled as
strings (scalar rendering). -/

abbrev Dict := List (Str × Str)

abbrev Yaml := Str → PyResult (Option Dict)

/-- Python `metadata.get(key, fallback)`. -/
def lookupD : Dict → Str → Str → Str
  | [], _, d => d
  | (k2, v) :: rest, k, d => if k2 = k then v else lookupD rest k d

/-- The body of the `try` block of `_parse_skill_metadata_from_content`:
an `exn` result is what the `except` handler catches. -/
def parseSkillMetadataBody (Y : Yaml) (content : Str) : PyResult Dict :=
  if (str "---").isPrefixOf content then
    let parts := pySplitMax content (str "---") 2
    if 3 ≤ parts.length then
      match Y (parts.getD 1 []) with
      | .exn e => .exn e
      | .ok m => .ok (m.getD [])
    else .ok []
  else .ok []

/-- `_parse_skill_metadata_from_content`: the `try` body with every
exception converted to the empty mapping. -/
def parseSkillMetadataFromContent (Y : Yaml) (content : Str) : Dict :=
  match parseSkillMetadataBody Y content with
  | .ok d => d
  | .exn _ => []

example :
    parseSkillMetadataFromContent
      (fun s => if s = str "\nname: foo\nversion: 1.0\n"
        then .ok (some [(str "name", str "foo"), (str "version", str "1.0")])
        else .ok none)
      (str "---\nname: foo\nversion: 1.0\n---\nbody") =
      [(str "name", str "foo"), (str "version", str "1.0")] := by decide

/-! ## SkillCatalog

`_list_github_skills` (cli.py lines 493 to 596).  The remote responses
are modelled as a response tree: the root listing, one listing per
category directory, one listing per skill directory, and one raw fetch
per `SKILL.md`.  `netFail` is a raised
`requests.exceptions.RequestException` (network or HTTP error),
`notList` a JSON value that is not a list, `nonDict` a JSON array
element that is not an object. -/

inductive MdResp where
  | netFail (e : String)
  | resp (status : Nat) (body : PyResult (Option Str))
deriving DecidableEq, Repr

inductive SkillDirResp where
  | netFail (e : String)
  | notList
  | items (names : List (Option Str)) (md : MdResp)
deriving DecidableEq, Repr

inductive CatItem where
  | nonDict
  | item (ty : Str) (name : Str) (sub : SkillDirResp)
deriving DecidableEq, Repr

inductive CatResp where
  | netFail (e : String)
  | notList
  | items (entries : List CatItem)
deriving DecidableEq, Repr

inductive CatEntry where
  | nonDict
  | entry (ty : Str) (name : Str) (sub : CatResp)
deriving DecidableEq, Repr

inductive RootResp where
  | netFail (e : String)
  | errObj (message : Option Str) (docUrl : Option Str)
  | items (cats : List CatEntry)
deriving DecidableEq, Repr

/-- One element of the `skills` list built by `_list_github_skills`. -/
structure SkillInfo where
  name : Str
  description : Str
  version : Str
  author : Str
  category : Str
  path : Str
deriving DecidableEq, Repr

/-- The body of the `for item in items` loop inside one category
(cli.py lines 541 to 581): a directory item whose own listing is a
list containing a `SKILL.md` entry becomes one catalog record; the
metadata comes from the raw `SKILL.md` fetch when that returns status
200 with a base64 JSON object, with every metadata failure degrading
to the empty mapping and a raised `RequestException` skipping the
skill. -/
def processCatItem (Y : Yaml) (repo category : Str) : CatItem → Option SkillInfo
  | .nonDict => none
  | .item ty name sub =>
    if ty = str "dir" then
      match sub with
      | .netFail _ => none
      | .notList => none
      | .items names md =>
        if names.contains (some (str "SKILL.md")) then
          match md with
          | .netFail _ => none
          | .resp status body =>
            let metadata : Dict :=
              if status = 200 then
                match body with
                | .exn _ => []
                | .ok none => []
                | .ok (some content) => parseSkillMetadataFromContent Y content
              else []
            some ⟨lookupD metadata (str "name") name,
                  lookupD metadata (str "description") (str "无描述"),
                  lookupD metadata (str "version") (str "N/A"),
                  lookupD metadata (str "author") (str "N/A"),
                  category,
                  repo ++ str "/" ++ category ++ str "/" ++ name⟩
        else none
    else none

/-- The body of the `for category in categories` loop (cli.py lines
522 to 585): a non-directory or non-object entry contributes nothing,
a failed or non-list category listing is skipped with a warning, and a
successful listing contributes its processed skill items in order. -/
def processCategory (Y : Yaml) (repo : Str) : CatEntry → List SkillInfo
  | .nonDict => []
  | .entry ty name sub =>
    if ty = str "dir" then
      match sub with
      | .netFail _ => []
      | .notList => []
      | .items entries => entries.filterMap (processCatItem Y repo name)
    else []

/-- Strict comparison of character lists by code point (Python string
comparison). -/
def strLtB : Str → Str → Bool
  | [], [] => false
  | [], _ :: _ => true
  | _ :: _, [] => false
  | a :: xs, b :: ys => a.toNat < b.toNat || (decide (a = b) && strLtB xs ys)

/-- Python tuple comparison on the sort key
`(x.get("category", ""), x["name"])`. -/
def keyLtB (a b : SkillInfo) : Bool :=
  strLtB a.category b.category || (decide (a.category = b.category) && strLtB a.name b.name)

/-- The non-strict key order used to model `sorted`. -/
def keyLeB (a b : SkillInfo) : Bool := !(keyLtB b a)

/-- Python `sorted(skills, key=lambda x: (category, name))`: a stable
sort by the key order; `sorted` and insertion sort agree because both
are stable with respect to the same total preorder. -/
def sortSkills (skills : List SkillInfo) : List SkillInfo :=
  List.insertionSort (fun a b => keyLeB a b = true) skills

/-- `_list_github_skills`: split the repo string (a failed unpack is
caught by the outer handler, which returns the empty list), detect a
non-list root response before iterating, walk the categories, and sort
the collected records by (category, name). -/
def listGithubSkills (Y : Yaml) (repo : Str) (root : RootResp) : List SkillInfo :=
  match pySplit repo (str "/") with
  | [_, _] =>
    match root with
    | .netFail _ => []
    | .errObj _ _ => []
    | .items cats => sortSkills (cats.map (processCategory Y repo)).flatten
  | _ => []

/-! ## Skill lookup by bare name

`_find_skill_by_name` (cli.py lines 243 to 274): exact-name pass over
the catalog first, then a case-insensitive substring pass, then
`None`.  The catalog itself never raises (it converts every failure
into an empty list), so the `except` handler of the source is
unreachable in the model. -/

/-- The spec string built for a found skill
(`f"{default_repo}/{category}/{name}"`, the category omitted when
falsy). -/
def mkSpecStr (defaultRepo category name : Str) : Str :=
  if category ≠ [] then defaultRepo ++ str "/" ++ category ++ str "/" ++ name
  else defaultRepo ++ str "/" ++ name

/-- The two matching passes of `_find_skill_by_name` over the catalog
list.  The exact pass builds the result from the query string itself
(source line 257), the fuzzy pass from the stored name. -/
def findSkillInList (skillName : Str) (skills : List SkillInfo) (defaultRepo : Str) :
    Option Str :=
  match skills.find? (fun s => decide (s.name = skillName)) with
  | some s => some (mkSpecStr defaultRepo s.category skillName)
  | none =>
    match skills.find? (fun s => containsSub (lowerStr s.name) (lowerStr skillName)) with
    | some s => some (mkSpecStr defaultRepo s.category s.name)
    | none => none

/-- `_find_skill_by_name`: consult the catalog of the override or
default repository, then run the two passes.  The `ref` argument is
forwarded to the catalog requests and does not influence the model. -/
def findSkillByName (skillName _ref : Str) (override : Option Str) (d : Str)
    (Y : Yaml) (root : RootResp) : Option Str :=
  let defaultRepo := orDefault override d
  findSkillInList skillName (listGithubSkills Y defaultRepo root) defaultRepo

/-! ## Claims about the spec resolver
-/

/-- C3: for every slash-delimited spec string with three or more
segments (and not a GitHub URL, which takes the URL branch first),
resolution yields owner and repo equal to the first two segments and
path equal to the remaining segments joined with a slash, for every
`repoOverride`. -/
theorem resolveSpec_threeSegments (spec ref : Str) (override : Option Str)
    (defaultRepo : Str)
    (hurl : (str "https://github.com/").isPrefixOf spec = false)
    (hlen : 3 ≤ (pySplit spec (str "/")).length) :
    resolveSpec spec ref override defaultRepo =
      .ok ⟨(pySplit spec (str "/")).getD 0 [], (pySplit spec (str "/")).getD 1 [],
           joinWith (str "/") ((pySplit spec (str "/")).drop 2), ref⟩ := by
  have h1 : 1 < (pySplit spec (str "/")).length := by omega
  simp [resolveSpec, hurl, h1, hlen]

/-- C3 witness: a concrete four-segment spec with an override, resolved
by the theorem. -/
theorem resolveSpec_threeSegments_witness :
    resolveSpec (str "acme/skills/web/react-expert") (str "main") (some (str "x/y"))
        (str "d/r") =
      .ok ⟨str "acme", str "skills", str "web/react-expert", str "main"⟩ := by
  have h := resolveSpec_threeSegments (str "acme/skills/web/react-expert") (str "main")
    (some (str "x/y")) (str "d/r") (by decide) (by decide)
  exact h.trans (by decide)

/-- C4: for every bare-name spec and every two-segment spec, resolution
takes owner and repo from the override when one is given (the default
repository otherwise) and uses the spec string itself as the path. -/
theorem resolveSpec_bareOrTwoSegments (spec ref : Str) (override : Option Str)
    (defaultRepo ow r : Str)
    (hurl : (str "https://github.com/").isPrefixOf spec = false)
    (hrepo : pySplit (orDefault override defaultRepo) (str "/") = [ow, r]) :
    ((pySplit spec (str "/")).length = 1 →
       resolveSpec spec ref override defaultRepo = .ok ⟨ow, r, spec, ref⟩)
    ∧ ((pySplit spec (str "/")).length = 2 →
       resolveSpec spec ref override defaultRepo = .ok ⟨ow, r, spec, ref⟩) := by
  constructor
  · intro hlen
    have h1 : ¬ 1 < (pySplit spec (str "/")).length := by omega
    simp [resolveSpec, hurl, h1, hrepo]
  · intro hlen
    have h1 : 1 < (pySplit spec (str "/")).length := by omega
    have h3 : ¬ 3 ≤ (pySplit spec (str "/")).length := by omega
    rcases override with _ | o
    · simp only [orDefault] at hrepo
      simp [resolveSpec, hurl, h1, h3, hrepo]
    · by_cases ho : o = []
      · subst ho
        simp only [orDefault, if_pos] at hrepo
        simp [resolveSpec, hurl, h1, h3, hrepo]
      · simp only [orDefault, if_neg ho] at hrepo
        simp [resolveSpec, hurl, h1, h3, ho, hrepo]

/-- C4 witness: the spec scenario, a two-segment spec with default
repository `acme/skills` and ref `main`. -/
theorem resolveSpec_bareOrTwoSegments_witness :
    resolveSpec (str "web/react-expert") (str "main") none (str "acme/skills") =
      .ok ⟨str "acme", str "skills", str "web/react-expert", str "main"⟩ := by
  have h := resolveSpec_bareOrTwoSegments (str "web/react-expert") (str "main") none
    (str "acme/skills") (str "acme") (str "skills") (by decide) (by decide)
  exact h.2 (by decide)

/-- C5 counterexample: the claim says resolution succeeds (does not
throw) on every full GitHub browser URL without a tree separator, but
on the plain repository URL the remainder after removing the last
segment is a single segment, its two-variable unpacking raises
`ValueError`, and resolution fails. -/
theorem resolveSpec_url_counterexample :
    (resolveSpec (str "https://github.com/acme/skills") (str "main") none
        (str "heibaibufen/winwin-skills")).toBool = false := by decide

/-- C5 (amended): for a spec that is a GitHub browser URL, resolution
splits on the tree separator; with a separator present the ref is the
segment right after it and the path the remaining segments of that
part, provided the part before the separator is exactly owner/repo;
with no separator the last segment is the skill name and the remainder
owner/repo, and resolution succeeds exactly when that remainder
re-splits into exactly two segments (so a plain owner/repo URL fails
rather than succeeds). -/
theorem resolveSpec_url (spec ref : Str) (override : Option Str) (defaultRepo : Str)
    (repoPath p1 o r : Str) (segs : List Str) :
    ((str "https://github.com/").isPrefixOf spec = true →
      pySplit (pyReplace spec (str "https://github.com/") []) (str "/tree/") =
        [repoPath, p1] →
      pySplit repoPath (str "/") = [o, r] →
      resolveSpec spec ref override defaultRepo =
        .ok ⟨o, r, joinWith (str "/") ((pySplit p1 (str "/")).drop 1),
             (pySplit p1 (str "/")).getD 0 []⟩)
    ∧ ((str "https://github.com/").isPrefixOf spec = true →
      pySplit (pyReplace spec (str "https://github.com/") []) (str "/tree/") =
        [repoPath] →
      pySplit repoPath (str "/") = segs →
      pySplit (joinWith (str "/") segs.dropLast) (str "/") = [o, r] →
      resolveSpec spec ref override defaultRepo = .ok ⟨o, r, segs.getLastD [], ref⟩) := by
  constructor
  · intro hurl hsplit hrepo
    simp [resolveSpec, hurl, hsplit, hrepo]
  · intro hurl hsplit hsegs hre
    simp [resolveSpec, hurl, hsplit, hsegs, hre]

/-- C5 witness: one URL with a tree separator and one three-segment
URL without, both resolved through the theorem. -/
theorem resolveSpec_url_witness :
    resolveSpec (str "https://github.com/acme/skills/tree/dev/web/react") (str "main")
        none (str "d/r") =
      .ok ⟨str "acme", str "skills", str "web/react", str "dev"⟩
    ∧ resolveSpec (str "https://github.com/acme/skills/react") (str "main")
        none (str "d/r") =
      .ok ⟨str "acme", str "skills", str "react", str "main"⟩ := by
  constructor
  · have h := (resolveSpec_url (str "https://github.com/acme/skills/tree/dev/web/react")
      (str "main") none (str "d/r") (str "acme/skills") (str "dev/web/react")
      (str "acme") (str "skills") []).1 (by decide) (by decide) (by decide)
    exact h.trans (by decide)
  · have h := (resolveSpec_url (str "https://github.com/acme/skills/react")
      (str "main") none (str "d/r") (str "acme/skills/react") []
      (str "acme") (str "skills")
      [str "acme", str "skills", str "react"]).2 (by decide) (by decide) (by decide)
      (by decide)
    exact h.trans (by decide)

/-! ## Claim about the metadata extractor
-/

/-- C7: metadata extraction never raises (every internal exception is
converted to the empty mapping by the handler), text not starting with
the front-matter delimiter yields the empty mapping, a text whose
delimiter split has fewer than three parts (malformed block) yields
the empty mapping, and extraction is deterministic on identical
text. -/
theorem parseSkillMetadata_total (Y : Yaml) (c : Str) :
    ((str "---").isPrefixOf c = false → parseSkillMetadataFromContent Y c = [])
    ∧ (∀ e, parseSkillMetadataBody Y c = .exn e → parseSkillMetadataFromContent Y c = [])
    ∧ ((pySplitMax c (str "---") 2).length < 3 → parseSkillMetadataFromContent Y c = [])
    ∧ (∀ c2, c = c2 →
        parseSkillMetadataFromContent Y c = parseSkillMetadataFromContent Y c2) := by
  refine ⟨?_, ?_, ?_, ?_⟩
  · intro h
    simp [parseSkillMetadataFromContent, parseSkillMetadataBody, h]
  · intro e h
    simp [parseSkillMetadataFromContent, h]
  · intro h
    have h3 : ¬ 3 ≤ (pySplitMax c (str "---") 2).length := by omega
    by_cases hp : (str "---").isPrefixOf c = true
    · simp [parseSkillMetadataFromContent, parseSkillMetadataBody, hp, h3]
    · simp [parseSkillMetadataFromContent, parseSkillMetadataBody,
        Bool.not_eq_true _ ▸ hp]
  · intro c2 h
    rw [h]

/-- C7 witness: a YAML oracle that always raises still yields the
empty mapping on a delimited text, and a delimiter-free text yields
the empty mapping under any oracle. -/
theorem parseSkillMetadata_total_witness :
    parseSkillMetadataFromContent (fun _ => .exn "yaml boom") (str "---a---b") = []
    ∧ parseSkillMetadataFromContent (fun _ => .ok (some [(str "k", str "v")]))
        (str "no front matter") = [] := by
  constructor
  · exact (parseSkillMetadata_total (fun _ => .exn "yaml boom") (str "---a---b")).2.1
      "yaml boom" (by decide)
  · exact (parseSkillMetadata_total (fun _ => .ok (some [(str "k", str "v")]))
      (str "no front matter")).1 (by decide)

/-! ## Claims about the remote tree lister
-/

/-- On a failure-free forest the walk returns exactly the depth-first
file jobs, and any reachable listing failure aborts the whole walk
with an exception. -/
theorem collectForest_spec (f : Forest) (d : List Str) :
    (hasFail f = false → collectForest f d = .ok (dlJobs f d))
    ∧ (hasFail f = true → ∃ e, collectForest f d = .exn e) := by
  induction f generalizing d with
  | nil => simp [hasFail, collectForest, dlJobs]
  | file name dl pf rest ih =>
    constructor
    · intro h
      have hr := (ih d).1 (by simpa [hasFail] using h)
      simp [collectForest, hr, dlJobs]
    · intro h
      obtain ⟨e, he⟩ := (ih d).2 (by simpa [hasFail] using h)
      exact ⟨e, by simp [collectForest, he]⟩
  | obj m rest ih =>
    constructor
    · intro h
      have hr := (ih d).1 (by simpa [hasFail] using h)
      simp [collectForest, hr, dlJobs]
    · intro h
      obtain ⟨e, he⟩ := (ih d).2 (by simpa [hasFail] using h)
      exact ⟨e, by simp [collectForest, he]⟩
  | dirOk name sub rest ihsub ihrest =>
    constructor
    · intro h
      rw [show hasFail (.dirOk name sub rest) = (hasFail sub || hasFail rest) from rfl,
        Bool.or_eq_false_iff] at h
      have hs := (ihsub (d ++ [name])).1 h.1
      have hr := (ihrest d).1 h.2
      simp [collectForest, hs, hr, dlJobs]
    · intro h
      by_cases hs : hasFail sub = true
      · obtain ⟨e, he⟩ := (ihsub (d ++ [name])).2 hs
        exact ⟨e, by simp [collectForest, he]⟩
      · have hs0 : hasFail sub = false := by simpa using hs
        have hr : hasFail rest = true := by
          rw [show hasFail (.dirOk name sub rest) = (hasFail sub || hasFail rest) from rfl,
            hs0] at h
          simpa using h
        have hsub := (ihsub (d ++ [name])).1 hs0
        obtain ⟨e, he⟩ := (ihrest d).2 hr
        exact ⟨e, by simp [collectForest, hsub, he]⟩
  | dirFail name e rest ih =>
    constructor
    · intro h
      simp [hasFail] at h
    · intro _
      exact ⟨e, rfl⟩

/-- The depth-first job list has one entry per reachable file node
with a truthy download URL. -/
theorem dlJobs_length (f : Forest) (d : List Str) :
    (dlJobs f d).length = countDlFiles f := by
  induction f generalizing d with
  | nil => simp [dlJobs, countDlFiles]
  | file name dl pf rest ih =>
    rcases dl with _ | u
    · simp [dlJobs, countDlFiles, ih]
    · by_cases hu : u = []
      · simp [dlJobs, countDlFiles, hu, ih]
      · simp [dlJobs, countDlFiles, hu, ih]
        omega
  | obj m rest ih => simp [dlJobs, countDlFiles, ih]
  | dirOk name sub rest ihsub ihrest => simp [dlJobs, countDlFiles, ihsub, ihrest]
  | dirFail name e rest ih => simp [dlJobs, countDlFiles, ih]

/-- C2 counterexample: a tree consisting of one file entry with no
download URL is one reachable non-directory node, yet the listing
returns zero results, so the claimed count equality fails on this
input. -/
theorem collectFiles_counterexample :
    collectFiles (.ok (.file (str "a") none none .nil)) [] = .ok []
    ∧ countFileNodes (.file (str "a") none none .nil) = 1 := by
  constructor
  · rfl
  · rfl

/-- C2 (amended): on a failure-free remote tree the recursive listing
returns exactly the depth-first list of file entries carrying a truthy
download URL (one job per such node, and only file nodes produce jobs,
so no directory entry appears in the output); a listing failure at any
nesting level, root included, aborts the entire walk with an exception
and no partial file list is returned. -/
theorem collectFiles_exhaustive (f : Forest) (d : List Str) :
    (hasFail f = false →
       collectFiles (.ok f) d = .ok (dlJobs f d)
       ∧ (dlJobs f d).length = countDlFiles f)
    ∧ (hasFail f = true → ∃ e, collectFiles (.ok f) d = .exn e)
    ∧ (∀ e, collectFiles (.fail e) d = .exn e) := by
  refine ⟨?_, ?_, ?_⟩
  · intro h
    exact ⟨(collectForest_spec f d).1 h, dlJobs_length f d⟩
  · intro h
    exact (collectForest_spec f d).2 h
  · intro e
    rfl

/-- C2 witness: the spec scenario tree `skill/{SKILL.md, scripts/run.sh}`
flattens to its two file jobs, and the same tree with the nested
listing failing aborts. -/
theorem collectFiles_exhaustive_witness :
    collectFiles (.ok (.file (str "SKILL.md") (some (str "u1")) (some (str "skill/SKILL.md"))
        (.dirOk (str "scripts")
          (.file (str "run.sh") (some (str "u2")) (some (str "skill/scripts/run.sh")) .nil)
          .nil))) [] =
      .ok [⟨str "u1", [str "SKILL.md"], str "skill/SKILL.md"⟩,
           ⟨str "u2", [str "scripts", str "run.sh"], str "skill/scripts/run.sh"⟩]
    ∧ (∃ e, collectFiles (.ok (.file (str "SKILL.md") (some (str "u1")) none
        (.dirFail (str "scripts") "HTTP 500" .nil))) [] = .exn e) := by
  constructor
  · have h := (collectFiles_exhaustive
      (.file (str "SKILL.md") (some (str "u1")) (some (str "skill/SKILL.md"))
        (.dirOk (str "scripts")
          (.file (str "run.sh") (some (str "u2")) (some (str "skill/scripts/run.sh")) .nil)
          .nil)) []).1 (by decide)
    exact h.1.trans (by decide)
  · exact (collectFiles_exhaustive
      (.file (str "SKILL.md") (some (str "u1")) none
        (.dirFail (str "scripts") "HTTP 500" .nil)) []).2.1 (by decide)

/-! ## Claims about error detection and cleanup
-/

/-- C6 counterexample: the recursive tree listing does not detect a
non-list response carrying a `message` field: it wraps the error
object into a one-item list, iterates it, matches neither the file nor
the directory branch, and returns zero files with no exception,
instead of failing with a not-found error. -/
theorem collectFiles_message_counterexample :
    collectFiles (.ok (.obj (some (str "Not Found")) .nil)) [] = .ok [] := by rfl

/-- C6 (amended): the catalog listing detects a non-list root response
(for example an API error object with a `message` field) before
iterating and returns the empty catalog; the recursive tree listing
instead wraps a non-list response into a one-item list and iterates
it, so a message-only error object yields zero files without an
exception, which the downloader then turns into a no-files abort that
removes the temporary directory; a nonexistent path reaching the API
as an HTTP error status aborts the tree listing through the raised
request exception. -/
theorem messageObject_handling (m docUrl : Option Str) (net : Str → PyResult Unit)
    (order : List FetchJob → List FetchJob) (Y : Yaml) (repo : Str) (e : String)
    (d : List Str) :
    listGithubSkills Y repo (.errObj m docUrl) = []
    ∧ collectForest (.obj m .nil) d = .ok []
    ∧ downloadSkillFromGithub (.ok (.obj m .nil)) net order = ⟨false, true, true, [], 0⟩
    ∧ collectFiles (.fail e) d = .exn e := by
  refine ⟨?_, rfl, rfl, rfl⟩
  unfold listGithubSkills
  rcases pySplit repo (str "/") with _ | ⟨a, _ | ⟨b, _ | ⟨c, t⟩⟩⟩ <;> rfl

/-- C8: on every abort of the download pipeline, the temporary
directory, if it was created, has been removed before control returns;
a resolution exception aborts before any directory exists, and both
download-stage aborts (listing failure, no files found) remove it. -/
theorem tempDir_cleanup (spec ref : Str) (override : Option Str) (defaultRepo : Str)
    (world : FetchTarget → Listing) (net : Str → PyResult Unit)
    (order : List FetchJob → List FetchJob) :
    ((resolveAndDownloadSkill spec ref override defaultRepo world net order).returned = false →
      (resolveAndDownloadSkill spec ref override defaultRepo world net order).tempCreated = true →
      (resolveAndDownloadSkill spec ref override defaultRepo world net order).tempRemoved = true)
    ∧ (∀ e, resolveSpec spec ref override defaultRepo = .exn e →
        resolveAndDownloadSkill spec ref override defaultRepo world net order =
          ⟨false, false, false⟩)
    ∧ (∀ root, (downloadSkillFromGithub root net order).returned = false →
        (downloadSkillFromGithub root net order).tempRemoved = true) := by
  have hdl : ∀ root, (downloadSkillFromGithub root net order).returned = false →
      (downloadSkillFromGithub root net order).tempRemoved = true := by
    intro root
    unfold downloadSkillFromGithub
    rcases collectFiles root [] with files | e2
    · by_cases hf : files = []
      · intro _
        simp [hf]
      · simp [hf]
    · intro _
      rfl
  refine ⟨?_, ?_, hdl⟩
  · unfold resolveAndDownloadSkill
    rcases resolveSpec spec ref override defaultRepo with t | e2
    · intro h _
      exact hdl (world t) h
    · intro _ hcr
      simp at hcr
  · intro e he
    unfold resolveAndDownloadSkill
    rw [he]

/-- C8 witness: a concrete run whose root listing call fails aborts
with the temporary directory created and removed, and a concrete
malformed default repository aborts resolution with no directory
created. -/
theorem tempDir_cleanup_witness :
    resolveAndDownloadSkill (str "react") (str "main") none (str "acme/skills")
        (fun _ => .fail "HTTP 404") (fun _ => .ok ()) id = ⟨false, true, true⟩
    ∧ resolveAndDownloadSkill (str "react") (str "main") none (str "not-a-repo")
        (fun _ => .ok .nil) (fun _ => .ok ()) id = ⟨false, false, false⟩ := by
  constructor
  · have h := tempDir_cleanup (str "react") (str "main") none (str "acme/skills")
      (fun _ => .fail "HTTP 404") (fun _ => .ok ()) id
    have h1 := h.1 (by decide) (by decide)
    revert h1
    decide
  · exact (tempDir_cleanup (str "react") (str "main") none (str "not-a-repo")
      (fun _ => .ok .nil) (fun _ => .ok ()) id).2.1
      "ValueError: owner, repo unpacking failed" (by decide)

/-! ## Claim about the concurrent fetcher
-/

/-- C1: for every non-empty job list and every completion order (any
permutation of the submitted jobs), the pool produces exactly one
outcome per job: the outcome count equals the job count, each job
appears in exactly as many outcomes as it appears among the submitted
jobs (no job lost or duplicated, and a failing job never removes a
sibling outcome), the number of failed outcomes equals the number of
jobs the network fails on, and the batch-level `failed` count of the
download run equals the number of failed outcomes it collected. -/
theorem concurrentFetch_outcomes (net : Str → PyResult Unit)
    (jobs jobsPerm : List FetchJob) (hperm : jobsPerm.Perm jobs) (_hne : jobs ≠ []) :
    (fetchAll net jobsPerm).length = jobs.length
    ∧ (∀ j : FetchJob,
        ((fetchAll net jobsPerm).filter (fun o => decide (o.job = j))).length =
          (jobs.filter (fun k => decide (k = j))).length)
    ∧ countFailed (fetchAll net jobsPerm) = (jobs.filter (jobFails net)).length
    ∧ (∀ (root : Listing) (order : List FetchJob → List FetchJob),
        (downloadSkillFromGithub root net order).failed =
          countFailed (downloadSkillFromGithub root net order).outcomes) := by
  refine ⟨?_, ?_, ?_, ?_⟩
  · simp [fetchAll, hperm.length_eq]
  · intro j
    have hjob : ∀ k : FetchJob, (downloadFile net k).job = k := by
      intro k
      unfold downloadFile
      rcases net k.sourceUrl <;> rfl
    rw [← List.countP_eq_length_filter, ← List.countP_eq_length_filter]
    unfold fetchAll
    rw [List.countP_map]
    have hp : ((fun o => decide (o.job = j)) ∘ downloadFile net) =
        fun k => decide (k = j) := by
      funext k
      simp [Function.comp, hjob]
    rw [hp]
    exact hperm.countP_eq _
  · unfold countFailed fetchAll
    rw [← List.countP_eq_length_filter, ← List.countP_eq_length_filter, List.countP_map]
    have hp : ((fun o => decide (o.success = false)) ∘ downloadFile net) =
        jobFails net := by
      funext k
      unfold Function.comp downloadFile jobFails
      rcases net k.sourceUrl <;> simp
    rw [hp]
    exact hperm.countP_eq _
  · intro root order
    unfold downloadSkillFromGithub
    rcases collectFiles root [] with files | e
    · by_cases hf : files = []
      · simp [hf, countFailed]
      · simp [hf]
    · simp [countFailed]

/-- C1 witness: the spec scenario, a batch of five jobs whose third
job fails, run in submission order: five outcomes, exactly one failed
outcome overall, and exactly one outcome for the failing job. -/
theorem concurrentFetch_outcomes_witness :
    (fetchAll (fun u => if u = str "u3" then .exn "timeout" else .ok ())
      [⟨str "u1", [str "f1"], str "f1"⟩, ⟨str "u2", [str "f2"], str "f2"⟩,
       ⟨str "u3", [str "f3"], str "f3"⟩, ⟨str "u4", [str "f4"], str "f4"⟩,
       ⟨str "u5", [str "f5"], str "f5"⟩]).length = 5
    ∧ countFailed (fetchAll (fun u => if u = str "u3" then .exn "timeout" else .ok ())
      [⟨str "u1", [str "f1"], str "f1"⟩, ⟨str "u2", [str "f2"], str "f2"⟩,
       ⟨str "u3", [str "f3"], str "f3"⟩, ⟨str "u4", [str "f4"], str "f4"⟩,
       ⟨str "u5", [str "f5"], str "f5"⟩]) = 1
    ∧ ((fetchAll (fun u => if u = str "u3" then .exn "timeout" else .ok ())
      [⟨str "u1", [str "f1"], str "f1"⟩, ⟨str "u2", [str "f2"], str "f2"⟩,
       ⟨str "u3", [str "f3"], str "f3"⟩, ⟨str "u4", [str "f4"], str "f4"⟩,
       ⟨str "u5", [str "f5"], str "f5"⟩]).filter
        (fun o => decide (o.job = ⟨str "u3", [str "f3"], str "f3"⟩))).length = 1 := by
  have h := concurrentFetch_outcomes
    (fun u => if u = str "u3" then .exn "timeout" else .ok ())
    [⟨str "u1", [str "f1"], str "f1"⟩, ⟨str "u2", [str "f2"], str "f2"⟩,
     ⟨str "u3", [str "f3"], str "f3"⟩, ⟨str "u4", [str "f4"], str "f4"⟩,
     ⟨str "u5", [str "f5"], str "f5"⟩]
    [⟨str "u1", [str "f1"], str "f1"⟩, ⟨str "u2", [str "f2"], str "f2"⟩,
     ⟨str "u3", [str "f3"], str "f3"⟩, ⟨str "u4", [str "f4"], str "f4"⟩,
     ⟨str "u5", [str "f5"], str "f5"⟩]
    (List.Perm.refl _) (by decide)
  exact ⟨h.1.trans (by decide), (h.2.2.1).trans (by decide),
    (h.2.1 ⟨str "u3", [str "f3"], str "f3"⟩).trans (by decide)⟩

/-! ## Claims about the skill catalog
-/

/-- C9: a failed directory-listing request for one category is caught
for that category alone: the catalog with the failing category equals
the catalog with that category absent, so the listings produced from
the other categories are still returned and the whole operation does
not abort. -/
theorem categoryFailure_skipped (Y : Yaml) (repo name : Str) (e : String)
    (pre post : List CatEntry) :
    listGithubSkills Y repo (.items (pre ++ .entry (str "dir") name (.netFail e) :: post)) =
      listGithubSkills Y repo (.items (pre ++ post)) := by
  unfold listGithubSkills
  rcases pySplit repo (str "/") with _ | ⟨a, _ | ⟨b, _ | ⟨c, t⟩⟩⟩
  · rfl
  · rfl
  · have hcat : processCategory Y repo (.entry (str "dir") name (.netFail e)) = [] := by
      simp [processCategory]
    simp [hcat]
  · rfl

/-!
Order infrastructure for the catalog sort: `strLtB` is a strict total
order on character lists and `keyLtB` the induced strict order on the
(category, name) sort key, so the non-strict `keyLeB` is a total
transitive relation, which is what `List.sorted_insertionSort`
needs. -/

theorem strLtB_irrefl (a : Str) : strLtB a a = false := by
  induction a with
  | nil => rfl
  | cons c cs ih => simp [strLtB, ih]

theorem strLtB_trans : ∀ (a b c : Str),
    strLtB a b = true → strLtB b c = true → strLtB a c = true := by
  intro a
  induction a with
  | nil =>
    intro b c h1 h2
    cases b with
    | nil => simp [strLtB] at h1
    | cons y ys =>
      cases c with
      | nil => simp [strLtB] at h2
      | cons z zs => simp [strLtB]
  | cons x xs ih =>
    intro b c h1 h2
    cases b with
    | nil => simp [strLtB] at h1
    | cons y ys =>
      cases c with
      | nil => simp [strLtB] at h2
      | cons z zs =>
        simp only [strLtB, Bool.or_eq_true, Bool.and_eq_true, decide_eq_true_eq] at h1 h2 ⊢
        rcases h1 with h1 | ⟨rfl, h1⟩
        · rcases h2 with h2 | ⟨rfl, h2⟩
          · exact Or.inl (Nat.lt_trans h1 h2)
          · exact Or.inl h1
        · rcases h2 with h2 | ⟨rfl, h2⟩
          · exact Or.inl h2
          · exact Or.inr ⟨rfl, ih ys zs h1 h2⟩

theorem strLtB_trichotomy : ∀ (a b : Str),
    strLtB a b = true ∨ a = b ∨ strLtB b a = true := by
  intro a
  induction a with
  | nil =>
    intro b
    cases b with
    | nil => exact Or.inr (Or.inl rfl)
    | cons y ys => exact Or.inl (by simp [strLtB])
  | cons x xs ih =>
    intro b
    cases b with
    | nil => exact Or.inr (Or.inr (by simp [strLtB]))
    | cons y ys =>
      rcases Nat.lt_trichotomy x.toNat y.toNat with h | h | h
      · exact Or.inl (by simp [strLtB, h])
      · have hxy : x = y := Char.eq_of_val_eq (UInt32.toNat.inj h)
        subst hxy
        rcases ih ys with h2 | h2 | h2
        · exact Or.inl (by simp [strLtB, h2])
        · exact Or.inr (Or.inl (by rw [h2]))
        · exact Or.inr (Or.inr (by simp [strLtB, h2]))
      · exact Or.inr (Or.inr (by simp [strLtB, h]))

theorem keyLtB_irrefl (a : SkillInfo) : keyLtB a a = false := by
  simp [keyLtB, strLtB_irrefl]

theorem keyLtB_trans (a b c : SkillInfo) (h1 : keyLtB a b = true)
    (h2 : keyLtB b c = true) : keyLtB a c = true := by
  simp only [keyLtB, Bool.or_eq_true, Bool.and_eq_true, decide_eq_true_eq] at h1 h2 ⊢
  rcases h1 with h1 | ⟨e1, h1⟩
  · rcases h2 with h2 | ⟨e2, h2⟩
    · exact Or.inl (strLtB_trans _ _ _ h1 h2)
    · exact Or.inl (by rw [← e2]; exact h1)
  · rcases h2 with h2 | ⟨e2, h2⟩
    · exact Or.inl (by rw [e1]; exact h2)
    · exact Or.inr ⟨e1.trans e2, strLtB_trans _ _ _ h1 h2⟩

theorem keyLtB_connected (a b c : SkillInfo) (h : keyLtB a c = true) :
    keyLtB a b = true ∨ keyLtB b c = true := by
  simp only [keyLtB, Bool.or_eq_true, Bool.and_eq_true, decide_eq_true_eq] at h ⊢
  rcases h with h | ⟨e, h⟩
  · rcases strLtB_trichotomy a.category b.category with h1 | h1 | h1
    · exact Or.inl (Or.inl h1)
    · exact Or.inr (Or.inl (by rw [← h1]; exact h))
    · exact Or.inr (Or.inl (strLtB_trans _ _ _ h1 h))
  · rcases strLtB_trichotomy a.category b.category with h1 | h1 | h1
    · exact Or.inl (Or.inl h1)
    · rcases strLtB_trichotomy a.name b.name with h2 | h2 | h2
      · exact Or.inl (Or.inr ⟨h1, h2⟩)
      · exact Or.inr (Or.inr ⟨h1.symm.trans e, by rw [← h2]; exact h⟩)
      · exact Or.inr (Or.inr ⟨h1.symm.trans e, strLtB_trans _ _ _ h2 h⟩)
    · exact Or.inr (Or.inl (by rw [← e]; exact h1))

theorem keyLeB_not_lt (a b : SkillInfo) : (keyLeB a b = true) ↔ (keyLtB b a = false) := by
  simp [keyLeB]

theorem keyLeB_isTrans : IsTrans SkillInfo (fun a b => keyLeB a b = true) := by
  constructor
  intro a b c hab hbc
  rw [keyLeB_not_lt] at hab hbc ⊢
  by_contra h
  rw [Bool.not_eq_false] at h
  rcases keyLtB_connected c b a h with h3 | h3
  · rw [h3] at hbc
    cases hbc
  · rw [h3] at hab
    cases hab

theorem keyLeB_isTotal : IsTotal SkillInfo (fun a b => keyLeB a b = true) := by
  constructor
  intro a b
  by_cases h : keyLtB b a = true
  · right
    rw [keyLeB_not_lt]
    by_contra h2
    rw [Bool.not_eq_false] at h2
    have := keyLtB_trans a b a h2 h
    rw [keyLtB_irrefl] at this
    cases this
  · left
    rw [keyLeB_not_lt]
    simpa using h

/-- The catalog output is always sorted by the (category, name) key
order. -/
theorem listGithubSkills_sorted (Y : Yaml) (repo : Str) (root : RootResp) :
    (listGithubSkills Y repo root).Sorted (fun a b => keyLeB a b = true) := by
  haveI := keyLeB_isTrans
  haveI := keyLeB_isTotal
  unfold listGithubSkills
  rcases pySplit repo (str "/") with _ | ⟨a, _ | ⟨b, _ | ⟨c, t⟩⟩⟩
  · simp
  · simp
  · rcases root with e | ⟨m, du⟩ | cats
    · simp
    · simp
    · exact List.sorted_insertionSort _ _
  · simp

/-- The catalog returns the empty list when the root listing request
raises, whatever the repository string. -/
theorem listGithubSkills_netFail (Y : Yaml) (repo : Str) (e : String) :
    listGithubSkills Y repo (.netFail e) = [] := by
  unfold listGithubSkills
  rcases pySplit repo (str "/") with _ | ⟨a, _ | ⟨b, _ | ⟨c, t⟩⟩⟩ <;> rfl

/-- C10: in the bare-name lookup an exact name match always wins over
any substring match (the exact pass runs over the whole catalog list
first); with no exact match the result is the first catalog entry, in
the (category, name)-sorted order the catalog always produces, whose
name contains the query case-insensitively; with no match at all the
lookup yields nothing, and a failed catalog fetch also yields nothing
instead of raising. -/
theorem findSkillByName_spec (skillName ref d : Str) (override : Option Str)
    (Y : Yaml) (skills : List SkillInfo) :
    (∀ s, skills.find? (fun t => decide (t.name = skillName)) = some s →
       findSkillInList skillName skills d = some (mkSpecStr d s.category skillName))
    ∧ (∀ s, skills.find? (fun t => decide (t.name = skillName)) = none →
       skills.find? (fun t => containsSub (lowerStr t.name) (lowerStr skillName)) = some s →
       findSkillInList skillName skills d = some (mkSpecStr d s.category s.name))
    ∧ (skills.find? (fun t => decide (t.name = skillName)) = none →
       skills.find? (fun t => containsSub (lowerStr t.name) (lowerStr skillName)) = none →
       findSkillInList skillName skills d = none)
    ∧ (∀ e, findSkillByName skillName ref override d Y (.netFail e) = none)
    ∧ (∀ root, (listGithubSkills Y (orDefault override d) root).Sorted
         (fun a b => keyLeB a b = true)) := by
  refine ⟨?_, ?_, ?_, ?_, ?_⟩
  · intro s h
    unfold findSkillInList
    rw [h]
  · intro s h hf
    unfold findSkillInList
    rw [h, hf]
  · intro h hf
    unfold findSkillInList
    rw [h, hf]
  · intro e
    show findSkillInList skillName
      (listGithubSkills Y (orDefault override d) (.netFail e)) (orDefault override d) = none
    rw [listGithubSkills_netFail]
    rfl
  · intro root
    exact listGithubSkills_sorted Y (orDefault override d) root

/-- C10 witness: a concrete two-entry catalog where the exact pass
finds `react`, the fuzzy pass resolves the query `Act` to the first
containing name, a query matching nothing yields nothing, and a failed
root fetch yields nothing. -/
theorem findSkillByName_spec_witness :
    findSkillInList (str "react")
      [⟨str "react", str "d1", str "v1", str "a1", str "web", str "p1"⟩,
       ⟨str "react-expert", str "d2", str "v2", str "a2", str "web", str "p2"⟩]
      (str "acme/skills") = some (str "acme/skills/web/react")
    ∧ findSkillInList (str "Act")
      [⟨str "react", str "d1", str "v1", str "a1", str "web", str "p1"⟩,
       ⟨str "react-expert", str "d2", str "v2", str "a2", str "web", str "p2"⟩]
      (str "acme/skills") = some (str "acme/skills/web/react")
    ∧ findSkillInList (str "zzz")
      [⟨str "react", str "d1", str "v1", str "a1", str "web", str "p1"⟩]
      (str "acme/skills") = none
    ∧ findSkillByName (str "react") (str "main") none (str "acme/skills")
      (fun _ => .ok none) (.netFail "connection refused") = none := by
  refine ⟨?_, ?_, ?_, ?_⟩
  · have h := (findSkillByName_spec (str "react") (str "main") (str "acme/skills") none
      (fun _ => .ok none)
      [⟨str "react", str "d1", str "v1", str "a1", str "web", str "p1"⟩,
       ⟨str "react-expert", str "d2", str "v2", str "a2", str "web", str "p2"⟩]).1
      ⟨str "react", str "d1", str "v1", str "a1", str "web", str "p1"⟩ (by decide)
    exact h.trans (by decide)
  · have h := (findSkillByName_spec (str "Act") (str "main") (str "acme/skills") none
      (fun _ => .ok none)
      [⟨str "react", str "d1", str "v1", str "a1", str "web", str "p1"⟩,
       ⟨str "react-expert", str "d2", str "v2", str "a2", str "web", str "p2"⟩]).2.1
      ⟨str "react", str "d1", str "v1", str "a1", str "web", str "p1"⟩ (by decide) (by decide)
    exact h.trans (by decide)
  · exact (findSkillByName_spec (str "zzz") (str "main") (str "acme/skills") none
      (fun _ => .ok none)
      [⟨str "react", str "d1", str "v1", str "a1", str "web", str "p1"⟩]).2.2.1
      (by decide) (by decide)
  · exact (findSkillByName_spec (str "react") (str "main") (str "acme/skills") none
      (fun _ => .ok none) []).2.2.2.1 "connection refused"
